import Mathlib

/-!
Verification of the core services of the news-chatbot backend (embedding
cache and generator, vector retriever, session store, generation mediator,
delivery coordinator) against a shallow embedding of the JavaScript source.
JavaScript strings are modelled as Lean String (or as List Char in the
word-splitting delivery layer), JSON numbers as rationals (JSON cannot
encode NaN or Infinity), and every asynchronous external effect (redis,
the Jina embedding endpoint, the Qdrant index, Gemini) as an explicit
environment field recording the outcome of that call.
-/

namespace News

/-- One component of a JSON-parsed array: a (necessarily finite) JSON
number, or any non-number JSON value (null, string, boolean, array,
object). -/
inductive JComp where
  | num (q : ℚ)
  | other
deriving DecidableEq

/-- The per-component check of ragService.generateEmbedding's
validEmbedding map: typeof val === "number" and not NaN and finite.
A value coming from JSON.parse is finite whenever it is a number at all. -/
def JComp.isNum : JComp → Bool
  | .num _ => true
  | .other => false

/-- validEmbedding's coercion: a non-numeric or non-finite entry becomes 0,
a numeric entry is kept. -/
def coerceComp : JComp → JComp
  | .num q => .num q
  | .other => .num 0

/-- The fallback vector new Array(768).fill(0). -/
def zeroVec : List JComp := List.replicate 768 (JComp.num 0)

/-- A cached redis value for an embedding key, as JSON.parse reads it:
a JSON array of components, some other JSON value, or a string JSON.parse
throws on. -/
inductive CacheVal where
  | arr (xs : List JComp)
  | nonArray
  | unparsable
deriving DecidableEq

/-- The value response.data?.data?.[0]?.embedding extracted from a
successful Jina response: an array, or something that is not an array
(undefined and other falsy values included). -/
inductive UpEmb where
  | arr (xs : List JComp)
  | nonArray
deriving DecidableEq

/-- Outcome of the axios POST to the Jina embeddings endpoint: a thrown
error (network failure, timeout, non-2xx), or a response carrying an
optional embedding value. -/
inductive Upstream where
  | failure
  | ok (emb : Option UpEmb)
deriving DecidableEq

/-- The environment generateEmbedding runs in: the redis cache contents
(keyed by the cache-key string), whether JINA_API_KEY is set, the upstream
response for each cleaned input, and whether the redis write-back
succeeds (a failing write is logged and swallowed by the source). -/
structure EmbedEnv where
  cache : String → Option CacheVal
  apiKey : Bool
  upstream : String → Upstream
  cacheWriteOk : Bool

/-- JavaScript String.prototype.trim, modelled directly on the character
list: whitespace is stripped from both ends. -/
def jsTrim (s : String) : String :=
  (((s.data.dropWhile Char.isWhitespace).reverse.dropWhile Char.isWhitespace).reverse).asString

/-- ToInt32 wrapping of a JavaScript bitwise result. -/
def toInt32 (n : ℤ) : ℤ := (n + 2 ^ 31) % 2 ^ 32 - 2 ^ 31

/-- One step of ragService.hashString: hash = ((hash << 5) - hash) + code,
then hash = hash & hash, which forces the value back to 32 bits. -/
def hashStep (h : ℤ) (c : ℕ) : ℤ := toInt32 (toInt32 (h * 32) - h + c)

/-- ragService.hashString: fold hashStep over the character codes starting
from 0, then Math.abs(hash).toString(). -/
def hashString (s : String) : String :=
  toString (s.data.foldl (fun h c => hashStep h c.toNat) 0).natAbs

/-- The redis key used by generateEmbedding: a hash of the raw input text
(computed before any cleaning). -/
def cacheKey (text : String) : String := "embedding:" ++ hashString text

/-- The replace(/\s+/g, ' ') step of generateEmbedding's text cleaning:
every maximal whitespace run becomes a single space. -/
def collapseWs : List Char → List Char
  | [] => []
  | c :: cs =>
    if c.isWhitespace then ' ' :: collapseWs (cs.dropWhile Char.isWhitespace)
    else c :: collapseWs cs
termination_by l => l.length
decreasing_by
  · simp only [List.length_cons]
    have h : (cs.dropWhile Char.isWhitespace).length ≤ cs.length :=
      (List.dropWhile_suffix Char.isWhitespace).sublist.length_le
    omega
  · simp only [List.length_cons]
    omega

/-- The cleaned text generateEmbedding sends upstream: whitespace
collapsed, trimmed, then substring(0, 8000). -/
def cleanText (text : String) : String :=
  (jsTrim (String.mk (collapseWs text.data))).take 8000

/-- What one generateEmbedding call produces: the returned vector, whether
an upstream network request was issued, and the cache contents afterwards. -/
structure EmbedResult where
  vec : List JComp
  networkCalled : Bool
  cacheAfter : String → Option CacheVal

/-- The network half of generateEmbedding, reached when the cache yields
no valid 768-length array: return the zero vector when the API key is
missing, otherwise call upstream on the cleaned text; a thrown error, a
missing or non-array embedding, or a wrong-dimension array all degrade to
the zero vector, and a valid array is coerced componentwise and written
back to the cache (best effort). -/
def fetchAndCache (env : EmbedEnv) (text : String) : EmbedResult :=
  if env.apiKey = false then ⟨zeroVec, false, env.cache⟩
  else
    match env.upstream (cleanText text) with
    | Upstream.failure => ⟨zeroVec, true, env.cache⟩
    | Upstream.ok none => ⟨zeroVec, true, env.cache⟩
    | Upstream.ok (some UpEmb.nonArray) => ⟨zeroVec, true, env.cache⟩
    | Upstream.ok (some (UpEmb.arr xs)) =>
      if xs.length = 768 then
        if env.cacheWriteOk then
          ⟨xs.map coerceComp, true,
            fun k => if k = cacheKey text then some (CacheVal.arr (xs.map coerceComp)) else env.cache k⟩
        else ⟨xs.map coerceComp, true, env.cache⟩
      else ⟨zeroVec, true, env.cache⟩

/-- ragService.generateEmbedding: blank text short-circuits to the zero
vector; otherwise the cache is consulted under the raw-text hash key and a
parsed array of length exactly 768 is served as a hit; an unparsable cache
string throws inside the try block and is caught as the zero vector; any
other cache content falls through to fetchAndCache. -/
def generateEmbedding (env : EmbedEnv) (text : String) : EmbedResult :=
  if jsTrim text = "" then ⟨zeroVec, false, env.cache⟩
  else
    match env.cache (cacheKey text) with
    | some (CacheVal.arr xs) =>
      if xs.length = 768 then ⟨xs, false, env.cache⟩ else fetchAndCache env text
    | some CacheVal.nonArray => fetchAndCache env text
    | some CacheVal.unparsable => ⟨zeroVec, false, env.cache⟩
    | none => fetchAndCache env text

theorem zeroVec_length : zeroVec.length = 768 := by
  rw [zeroVec, List.length_replicate]

theorem zeroVec_isNum : ∀ c ∈ zeroVec, c.isNum = true := by
  intro c hc
  have := List.eq_of_mem_replicate hc
  subst this
  rfl

theorem isNum_coerceComp (c : JComp) : (coerceComp c).isNum = true := by
  cases c <;> rfl

/-- fetchAndCache always returns 768 finite numeric components. -/
theorem fetchAndCache_spec (env : EmbedEnv) (text : String) :
    (fetchAndCache env text).vec.length = 768 ∧
    ∀ c ∈ (fetchAndCache env text).vec, c.isNum = true := by
  unfold fetchAndCache
  split
  · exact ⟨zeroVec_length, zeroVec_isNum⟩
  split
  · exact ⟨zeroVec_length, zeroVec_isNum⟩
  · exact ⟨zeroVec_length, zeroVec_isNum⟩
  · exact ⟨zeroVec_length, zeroVec_isNum⟩
  rename_i xs heq
  split
  · rename_i hl
    have hmap : ∀ c ∈ xs.map coerceComp, c.isNum = true := by
      intro c hc
      rcases List.mem_map.mp hc with ⟨a, _, rfl⟩
      exact isNum_coerceComp a
    split
    · exact ⟨by simpa using hl, hmap⟩
    · exact ⟨by simpa using hl, hmap⟩
  · exact ⟨zeroVec_length, zeroVec_isNum⟩

theorem generateEmbedding_blank (env : EmbedEnv) {text : String} (h : jsTrim text = "") :
    generateEmbedding env text = ⟨zeroVec, false, env.cache⟩ := by
  simp only [generateEmbedding, if_pos h]

theorem generateEmbedding_hit (env : EmbedEnv) {text : String} {xs : List JComp}
    (hb : ¬ jsTrim text = "") (hx : env.cache (cacheKey text) = some (CacheVal.arr xs))
    (hl : xs.length = 768) :
    generateEmbedding env text = ⟨xs, false, env.cache⟩ := by
  simp only [generateEmbedding, if_neg hb, hx, if_pos hl]

theorem generateEmbedding_unparsable (env : EmbedEnv) {text : String}
    (hb : ¬ jsTrim text = "") (hx : env.cache (cacheKey text) = some CacheVal.unparsable) :
    generateEmbedding env text = ⟨zeroVec, false, env.cache⟩ := by
  simp only [generateEmbedding, if_neg hb, hx]

theorem generateEmbedding_miss_none (env : EmbedEnv) {text : String}
    (hb : ¬ jsTrim text = "") (hx : env.cache (cacheKey text) = none) :
    generateEmbedding env text = fetchAndCache env text := by
  simp only [generateEmbedding, if_neg hb, hx]

theorem generateEmbedding_miss_nonArray (env : EmbedEnv) {text : String}
    (hb : ¬ jsTrim text = "") (hx : env.cache (cacheKey text) = some CacheVal.nonArray) :
    generateEmbedding env text = fetchAndCache env text := by
  simp only [generateEmbedding, if_neg hb, hx]

theorem generateEmbedding_miss_badLength (env : EmbedEnv) {text : String} {xs : List JComp}
    (hb : ¬ jsTrim text = "") (hx : env.cache (cacheKey text) = some (CacheVal.arr xs))
    (hl : ¬ xs.length = 768) :
    generateEmbedding env text = fetchAndCache env text := by
  simp only [generateEmbedding, if_neg hb, hx, if_neg hl]

theorem fetchAndCache_noKey (env : EmbedEnv) {text : String} (hk : env.apiKey = false) :
    fetchAndCache env text = ⟨zeroVec, false, env.cache⟩ := by
  simp [fetchAndCache, hk]

theorem fetchAndCache_good (env : EmbedEnv) {text : String} {xs : List JComp}
    (hk : env.apiKey = true) (hup : env.upstream (cleanText text) = Upstream.ok (some (UpEmb.arr xs)))
    (hl : xs.length = 768) (hw : env.cacheWriteOk = true) :
    fetchAndCache env text = ⟨xs.map coerceComp, true,
      fun k => if k = cacheKey text then some (CacheVal.arr (xs.map coerceComp)) else env.cache k⟩ := by
  simp [fetchAndCache, hk, hup, hl, hw]

theorem fetchAndCache_goodNoWrite (env : EmbedEnv) {text : String} {xs : List JComp}
    (hk : env.apiKey = true) (hup : env.upstream (cleanText text) = Upstream.ok (some (UpEmb.arr xs)))
    (hl : xs.length = 768) (hw : env.cacheWriteOk = false) :
    fetchAndCache env text = ⟨xs.map coerceComp, true, env.cache⟩ := by
  simp [fetchAndCache, hk, hup, hl, hw]

theorem fetchAndCache_network (env : EmbedEnv) {text : String} (hk : env.apiKey = true) :
    (fetchAndCache env text).networkCalled = true := by
  cases hup : env.upstream (cleanText text) with
  | failure => simp [fetchAndCache, hk, hup]
  | ok emb =>
    cases emb with
    | none => simp [fetchAndCache, hk, hup]
    | some ue =>
      cases ue with
      | nonArray => simp [fetchAndCache, hk, hup]
      | arr xs =>
        by_cases hl : xs.length = 768
        · by_cases hw : env.cacheWriteOk = true
          · simp [fetchAndCache, hk, hup, hl, hw]
          · simp [fetchAndCache, hk, hup, hl, hw]
        · simp [fetchAndCache, hk, hup, hl]

/-- C2 (amended): for every input text and environment — empty, whitespace-only
or control-character-only text, arbitrary cache contents, a missing API key,
upstream errors, and malformed or wrong-dimension upstream responses included —
generateEmbedding returns (never throws: it is total by construction) a vector
of exactly 768 components; and every component is a finite number provided the
cache entry consulted, when it is a 768-length array, holds only finite
numbers (as every entry generateEmbedding itself writes does). -/
theorem C2_embed_dimension_amended (env : EmbedEnv) (text : String)
    (hc : ∀ xs, env.cache (cacheKey text) = some (CacheVal.arr xs) → xs.length = 768 →
      ∀ c ∈ xs, c.isNum = true) :
    (generateEmbedding env text).vec.length = 768 ∧
    ∀ c ∈ (generateEmbedding env text).vec, c.isNum = true := by
  unfold generateEmbedding
  split
  · exact ⟨zeroVec_length, zeroVec_isNum⟩
  split
  · rename_i xs heq
    split
    · rename_i hl
      exact ⟨hl, hc xs heq hl⟩
    · exact fetchAndCache_spec env text
  · exact fetchAndCache_spec env text
  · exact ⟨zeroVec_length, zeroVec_isNum⟩
  · exact fetchAndCache_spec env text

/-- An environment whose cache is empty, with no API key configured. -/
def emptyCacheEnv : EmbedEnv :=
  { cache := fun _ => none, apiKey := false, upstream := fun _ => Upstream.failure,
    cacheWriteOk := true }

/-- C2 witness: the amended theorem applied at a concrete environment and
text, the cache hypothesis discharged (the cache is empty). -/
theorem C2_embed_dimension_witness :
    (generateEmbedding emptyCacheEnv "hi").vec.length = 768 ∧
    ∀ c ∈ (generateEmbedding emptyCacheEnv "hi").vec, c.isNum = true :=
  C2_embed_dimension_amended emptyCacheEnv "hi"
    (fun xs h => by simp only [emptyCacheEnv] at h; cases h)

/-- An environment whose cache holds, under the key for "hello", a JSON array
of 768 non-number components (for instance 768 nulls): it passes the source's
Array.isArray and length === 768 hit validation. -/
def badCacheEnv : EmbedEnv :=
  { cache := fun k =>
      if k = cacheKey "hello" then some (CacheVal.arr (List.replicate 768 JComp.other)) else none,
    apiKey := true, upstream := fun _ => Upstream.failure, cacheWriteOk := true }

set_option maxRecDepth 4000 in
/-- C2 counterexample: with such cache contents generateEmbedding "hello"
serves the cached array as-is, so its components are not all finite numbers —
the claim's "regardless of cache contents ... each a finite number" fails
(the hit validation checks only Array.isArray and length, not the entries). -/
theorem C2_embed_finiteness_counterexample :
    ¬ (∀ c ∈ (generateEmbedding badCacheEnv "hello").vec, c.isNum = true) := by
  intro h
  have hv : (generateEmbedding badCacheEnv "hello").vec = List.replicate 768 JComp.other := by
    rw [generateEmbedding_hit badCacheEnv (by decide)
      (show badCacheEnv.cache (cacheKey "hello")
          = some (CacheVal.arr (List.replicate 768 JComp.other)) from rfl)
      (by rw [List.length_replicate])]
  have hm : JComp.other ∈ (generateEmbedding badCacheEnv "hello").vec := by
    rw [hv]
    exact List.mem_replicate.mpr ⟨by omega, rfl⟩
  have := h _ hm
  simp [JComp.isNum] at this

/-- An environment with a working upstream returning a fixed valid vector
but a failing redis write-back (the source logs and swallows the failure). -/
def writeFailEnv : EmbedEnv :=
  { cache := fun _ => none, apiKey := true,
    upstream := fun _ => Upstream.ok (some (UpEmb.arr (List.replicate 768 (JComp.num 1)))),
    cacheWriteOk := false }

/-- C3 counterexample: when the best-effort cache write fails after a
successful fetch, a second generateEmbedding call for the same text issues
another upstream network request, refuting the claim that the second call
never does. -/
theorem C3_second_call_network_counterexample :
    (generateEmbedding
      { writeFailEnv with cache := (generateEmbedding writeFailEnv "hi").cacheAfter }
      "hi").networkCalled = true := by
  have h1 : generateEmbedding writeFailEnv "hi"
      = ⟨(List.replicate 768 (JComp.num 1)).map coerceComp, true, writeFailEnv.cache⟩ := by
    rw [generateEmbedding_miss_none writeFailEnv (by decide) rfl,
      fetchAndCache_goodNoWrite writeFailEnv rfl rfl (by rw [List.length_replicate]) rfl]
  rw [h1]
  show (generateEmbedding writeFailEnv "hi").networkCalled = true
  rw [generateEmbedding_miss_none writeFailEnv (by decide) rfl]
  exact fetchAndCache_network writeFailEnv rfl

/-- When a first call leaves the cache unchanged and issues no network
request, the second call is the same call. -/
theorem second_call_of_stable (env : EmbedEnv) (text : String) {v : List JComp}
    (h : generateEmbedding env text = ⟨v, false, env.cache⟩) :
    generateEmbedding { env with cache := (generateEmbedding env text).cacheAfter } text
      = generateEmbedding env text := by
  rw [h]
  show generateEmbedding env text = ⟨v, false, env.cache⟩
  exact h

/-- The fetch-path half of the cache-correctness argument: on a cache miss
with working cache writes, either no network request happens at all (no API
key) or the fetched, validated vector is cached and the second call hits. -/
theorem C3_fetch_case (env : EmbedEnv) (text : String)
    (hb : ¬ jsTrim text = "")
    (e1 : generateEmbedding env text = fetchAndCache env text)
    (hw : env.cacheWriteOk = true)
    (hu : (generateEmbedding env text).networkCalled = false ∨
      ∃ xs, env.upstream (cleanText text) = Upstream.ok (some (UpEmb.arr xs)) ∧ xs.length = 768) :
    (generateEmbedding { env with cache := (generateEmbedding env text).cacheAfter } text).vec
        = (generateEmbedding env text).vec ∧
    (generateEmbedding { env with cache := (generateEmbedding env text).cacheAfter } text).networkCalled
        = false ∧
    ((generateEmbedding env text).networkCalled = true →
      (generateEmbedding env text).cacheAfter (cacheKey text)
        = some (CacheVal.arr (generateEmbedding env text).vec)) := by
  by_cases hk : env.apiKey = true
  · have hnet : (generateEmbedding env text).networkCalled = true := by
      rw [e1]
      exact fetchAndCache_network env hk
    rcases hu with hu | ⟨xs, hup, hl⟩
    · rw [hnet] at hu
      cases hu
    · have e2 : fetchAndCache env text = ⟨xs.map coerceComp, true,
          fun k => if k = cacheKey text then some (CacheVal.arr (xs.map coerceComp)) else env.cache k⟩ :=
        fetchAndCache_good env hk hup hl hw
      have e12 := e1.trans e2
      have hupd : ((fun k =>
          if k = cacheKey text then some (CacheVal.arr (xs.map coerceComp)) else env.cache k)
            (cacheKey text)) = some (CacheVal.arr (xs.map coerceComp)) := by
        simp
      have ehit : generateEmbedding
          { env with cache := (generateEmbedding env text).cacheAfter } text
          = ⟨xs.map coerceComp, false, (generateEmbedding env text).cacheAfter⟩ := by
        refine generateEmbedding_hit _ hb ?_ (by rw [List.length_map]; exact hl)
        show (generateEmbedding env text).cacheAfter (cacheKey text)
          = some (CacheVal.arr (xs.map coerceComp))
        rw [e12]
        exact hupd
      refine ⟨?_, ?_, ?_⟩
      · rw [ehit, e12]
      · rw [ehit]
      · intro _
        rw [e12]
        exact hupd
  · have hk' : env.apiKey = false := by
      cases h : env.apiKey
      · rfl
      · exact absurd h hk
    have e1' : generateEmbedding env text = ⟨zeroVec, false, env.cache⟩ :=
      e1.trans (fetchAndCache_noKey env hk')
    have s := second_call_of_stable env text e1'
    refine ⟨by rw [s], by rw [s, e1'], ?_⟩
    intro hnet
    rw [e1'] at hnet
    cases hnet

/-- C3 (amended): the cache key is a hash of the raw input text (computed
before whitespace cleaning), the cache is consulted before the network call
and a structurally valid hit is returned verbatim with no upstream request,
and a successful fetch writes the validated vector back under that key;
consequently, whenever cache writes succeed and the first call either
issues no upstream request or fetches a well-formed 768-component
embedding, a second call on the same text returns the bit-identical vector
and issues no upstream network request. (Unconditionally — in particular
after a failed best-effort cache write or a failed fetch — the claim is
false, see the counterexample.) -/
theorem C3_embed_cache_amended (env : EmbedEnv) (text : String)
    (hw : env.cacheWriteOk = true)
    (hu : (generateEmbedding env text).networkCalled = false ∨
      ∃ xs, env.upstream (cleanText text) = Upstream.ok (some (UpEmb.arr xs)) ∧ xs.length = 768) :
    (generateEmbedding { env with cache := (generateEmbedding env text).cacheAfter } text).vec
        = (generateEmbedding env text).vec ∧
    (generateEmbedding { env with cache := (generateEmbedding env text).cacheAfter } text).networkCalled
        = false ∧
    ((generateEmbedding env text).networkCalled = true →
      (generateEmbedding env text).cacheAfter (cacheKey text)
        = some (CacheVal.arr (generateEmbedding env text).vec)) ∧
    (¬ jsTrim text = "" → ∀ xs, env.cache (cacheKey text) = some (CacheVal.arr xs) →
      xs.length = 768 →
      (generateEmbedding env text).networkCalled = false ∧ (generateEmbedding env text).vec = xs) := by
  by_cases hb : jsTrim text = ""
  · have e1 := generateEmbedding_blank env hb
    have s := second_call_of_stable env text e1
    refine ⟨by rw [s], by rw [s, e1], ?_, fun hbne => absurd hb hbne⟩
    intro hnet
    rw [e1] at hnet
    cases hnet
  · have hit4 : ∀ ys, env.cache (cacheKey text) = some (CacheVal.arr ys) → ys.length = 768 →
        (generateEmbedding env text).networkCalled = false ∧ (generateEmbedding env text).vec = ys := by
      intro ys hy hyl
      rw [generateEmbedding_hit env hb hy hyl]
      exact ⟨rfl, rfl⟩
    cases hcv : env.cache (cacheKey text) with
    | some cv =>
      cases cv with
      | arr ys =>
        by_cases hl : ys.length = 768
        · have e1 := generateEmbedding_hit env hb hcv hl
          have s := second_call_of_stable env text e1
          refine ⟨by rw [s], by rw [s, e1], ?_, fun _ xs hx hxl => hit4 xs (by rw [hcv]; exact hx) hxl⟩
          intro hnet
          rw [e1] at hnet
          cases hnet
        · have e1 := generateEmbedding_miss_badLength env hb hcv hl
          rcases C3_fetch_case env text hb e1 hw hu with ⟨h1, h2, h3⟩
          exact ⟨h1, h2, h3, fun _ xs hx hxl => hit4 xs (by rw [hcv]; exact hx) hxl⟩
      | nonArray =>
        have e1 := generateEmbedding_miss_nonArray env hb hcv
        rcases C3_fetch_case env text hb e1 hw hu with ⟨h1, h2, h3⟩
        exact ⟨h1, h2, h3, fun _ xs hx hxl => hit4 xs (by rw [hcv]; exact hx) hxl⟩
      | unparsable =>
        have e1 := generateEmbedding_unparsable env hb hcv
        have s := second_call_of_stable env text e1
        refine ⟨by rw [s], by rw [s, e1], ?_, fun _ xs hx hxl => hit4 xs (by rw [hcv]; exact hx) hxl⟩
        intro hnet
        rw [e1] at hnet
        cases hnet
    | none =>
      have e1 := generateEmbedding_miss_none env hb hcv
      rcases C3_fetch_case env text hb e1 hw hu with ⟨h1, h2, h3⟩
      exact ⟨h1, h2, h3, fun _ xs hx hxl => hit4 xs (by rw [hcv]; exact hx) hxl⟩

/-- C3 witness: the amended theorem applied at a concrete environment and
text, both hypotheses discharged (blank text issues no network request). -/
theorem C3_embed_cache_witness :
    (generateEmbedding
      { emptyCacheEnv with cache := (generateEmbedding emptyCacheEnv "").cacheAfter } "").vec
      = (generateEmbedding emptyCacheEnv "").vec :=
  (C3_embed_cache_amended emptyCacheEnv "" rfl (Or.inl (by decide))).1

/-! Session Store (sessionService.js). The redis state backing one
session: metadata under session:<id> and the message list under
session:<id>:messages, whose head (index 0) is the most recently pushed
element, since addMessage uses lPush. -/

/-- A chat message as stored in the session log: the fields the claims
touch (the stored object also carries an id and optional sources). -/
structure ChatMsg where
  ty : String
  content : String
  timestamp : ℕ
deriving DecidableEq

/-- One element of the redis message list as JSON.parse reads it back:
a message object, or the junk element createSession rPushes (the string
produced by JSON.stringify of an empty array, which parses to a contentless
value). -/
inductive LogEntry where
  | msg (m : ChatMsg)
  | junk
deriving DecidableEq

/-- Session metadata, timestamps abstracted to naturals. -/
structure SessionMeta where
  createdAt : ℕ
  lastActivity : ℕ
  messageCount : ℕ
deriving DecidableEq

/-- The redis state backing one session. -/
structure SessStore where
  meta : Option SessionMeta
  log : List LogEntry
deriving DecidableEq

def maxMessagesPerSession : ℕ := 200

/-- sessionService.createSession at time t: metadata with messageCount 0
and both timestamps t, the messages key deleted, then rPush of
JSON.stringify([]) — leaving a one-element list holding the junk entry. -/
def createSession (t : ℕ) : SessStore :=
  { meta := some ⟨t, t, 0⟩, log := [LogEntry.junk] }

/-- sessionService.addMessage at time t: lPush the stringified message,
lTrim(0, 199), then recompute messageCount as lLen of the trimmed list and
refresh lastActivity (when the session metadata exists). -/
def addMessage (s : SessStore) (m : ChatMsg) (t : ℕ) : SessStore :=
  { meta := s.meta.map fun md =>
      ⟨md.createdAt, t, ((LogEntry.msg m :: s.log).take maxMessagesPerSession).length⟩,
    log := (LogEntry.msg m :: s.log).take maxMessagesPerSession }

/-- sessionService.clearSession at time t: delete the messages key, set
messageCount 0 and refresh lastActivity (when the metadata exists). -/
def clearSession (s : SessStore) (t : ℕ) : SessStore :=
  { meta := s.meta.map fun md => ⟨md.createdAt, t, 0⟩, log := [] }

/-- The claimed invariant: the stored messageCount equals the length of
the live message list. -/
def storeInv (s : SessStore) : Prop :=
  ∀ md, s.meta = some md → md.messageCount = s.log.length

/-- Appending a batch of messages one addMessage at a time. -/
def addAll (s : SessStore) (ms : List ChatMsg) (t : ℕ) : SessStore :=
  ms.foldl (fun st m => addMessage st m t) s

theorem take_append_take {α : Type} (a b : List α) (n : ℕ) :
    (a ++ b.take n).take n = (a ++ b).take n := by
  rw [List.take_append_eq_append_take, List.take_append_eq_append_take, List.take_take]
  congr 1
  rw [Nat.min_eq_left (Nat.sub_le n a.length)]

theorem addAll_log (ms : List ChatMsg) (s : SessStore) (t : ℕ) (hne : ms ≠ []) :
    (addAll s ms t).log
      = ((ms.reverse.map LogEntry.msg) ++ s.log).take maxMessagesPerSession := by
  induction ms generalizing s with
  | nil => exact absurd rfl hne
  | cons m ms ih =>
    have hstep : addAll s (m :: ms) t = addAll (addMessage s m t) ms t := rfl
    by_cases h : ms = []
    · subst h
      rfl
    · rw [hstep, ih (addMessage s m t) h]
      have hlog : (addMessage s m t).log = (LogEntry.msg m :: s.log).take maxMessagesPerSession :=
        rfl
      rw [hlog, take_append_take, List.reverse_cons, List.map_append, List.map_cons,
        List.map_nil, List.append_assoc, List.singleton_append]

/-- A batch of 250 distinct messages. -/
def ms250 : List ChatMsg := (List.range 250).map fun i => ⟨"user", "x", i⟩

/-- C4: evaluation of the Session Store operations. createSession breaks
the claimed invariant: it pushes the junk string JSON.stringify([]) onto
the freshly deleted messages list (the source comment says "ensure empty"),
so the live log has length 1 while the stored messageCount is 0. The other
parts of the claim hold: addMessage recomputes messageCount from the
trimmed list so the invariant holds after every addMessage, clearSession
resets both, and 250 appends leave exactly the most recent 200 entries. -/
theorem C4_messageCount_bug_eval :
    ¬ storeInv (createSession 0) ∧
    (createSession 0).log.length = 1 ∧
    (createSession 0).meta = some ⟨0, 0, 0⟩ ∧
    (∀ s m t, storeInv (addMessage s m t)) ∧
    (∀ s t, storeInv (clearSession s t)) ∧
    (addAll (createSession 0) ms250 5).log
      = (ms250.reverse.take maxMessagesPerSession).map LogEntry.msg := by
  refine ⟨?_, rfl, rfl, ?_, ?_, ?_⟩
  · intro h
    have := h ⟨0, 0, 0⟩ rfl
    simp [createSession] at this
  · intro s m t md hmd
    rcases hs : s.meta with _ | md'
    · simp [addMessage, hs] at hmd
    · simp only [addMessage, hs, Option.map_some'] at hmd
      injection hmd with hmd
      subst hmd
      rfl
  · intro s t md hmd
    rcases hs : s.meta with _ | md'
    · simp [clearSession, hs] at hmd
    · simp only [clearSession, hs, Option.map_some'] at hmd
      injection hmd with hmd
      subst hmd
      rfl
  · rw [addAll_log ms250 (createSession 0) 5 (by simp [ms250])]
    have h250 : maxMessagesPerSession ≤ (ms250.reverse.map LogEntry.msg).length := by
      simp [ms250, maxMessagesPerSession]
    rw [show (createSession 0).log = [LogEntry.junk] from rfl,
      List.take_append_of_le_length h250, List.map_take]

/-- Redis LRANGE key 0 stop: a negative stop counts from the end of the
list (-1 is the last element); the inclusive range 0..stop is returned,
clamped to the list. -/
def lRangeFrom0 (log : List LogEntry) (stop : ℤ) : List LogEntry :=
  if (if stop < 0 then (log.length : ℤ) + stop else stop) < 0 then []
  else log.take ((if stop < 0 then (log.length : ℤ) + stop else stop).toNat + 1)

/-- sessionService.getSessionHistory: lRange(key, 0, limit - 1), JSON.parse
each element, then reverse (the head of the redis list is the newest
entry, so the reversal yields oldest-first order). -/
def getSessionHistory (log : List LogEntry) (limit : ℤ) : List LogEntry :=
  (lRangeFrom0 log (limit - 1)).reverse

theorem getSessionHistory_take (log : List LogEntry) (limit : ℤ) :
    ∃ k, getSessionHistory log limit = (log.take k).reverse := by
  unfold getSessionHistory lRangeFrom0
  split
  · split
    · exact ⟨0, rfl⟩
    · exact ⟨_, rfl⟩
  · exact ⟨_, rfl⟩

/-- C8 counterexample: with one stored message, a request with limit 0
returns that message, not an empty array — lRange(key, 0, -1) denotes the
whole list in redis, so the claim fails at limit = 0. -/
theorem C8_limit_zero_counterexample :
    getSessionHistory [LogEntry.msg ⟨"user", "hello", 5⟩] 0
        = [LogEntry.msg ⟨"user", "hello", 5⟩] ∧
    getSessionHistory [LogEntry.msg ⟨"user", "hello", 5⟩] 0 ≠ [] := by
  constructor
  · rfl
  · intro h
    cases h

/-- C8 (amended): for every session log and every limit of at least 1,
getSessionHistory returns at most limit messages, namely the most recent
min(limit, length) entries in oldest-first order (the reverse of the
newest-first prefix); entries ordered newest-first by any timestamp
measure come back in non-decreasing order for every limit; but a request
with limit = 0 returns the entire log oldest-first (redis end index -1 is
the last element), not an empty array. -/
theorem C8_history_amended (log : List LogEntry) (limit : ℤ) :
    (1 ≤ limit →
      (getSessionHistory log limit).length ≤ limit.toNat ∧
      getSessionHistory log limit = (log.take limit.toNat).reverse) ∧
    (∀ ts : LogEntry → ℕ, log.Pairwise (fun a b => ts b ≤ ts a) →
      (getSessionHistory log limit).Pairwise (fun a b => ts a ≤ ts b)) ∧
    getSessionHistory log 0 = log.reverse := by
  refine ⟨?_, ?_, ?_⟩
  · intro hl
    have hpos : ¬ (limit - 1 < 0) := by omega
    have htoNat : (limit - 1).toNat + 1 = limit.toNat := by omega
    have heq : getSessionHistory log limit = (log.take limit.toNat).reverse := by
      unfold getSessionHistory lRangeFrom0
      rw [if_neg hpos, if_neg (by omega : ¬ ((limit - 1 : ℤ) < 0)), htoNat]
    refine ⟨?_, heq⟩
    rw [heq, List.length_reverse]
    exact le_trans (List.length_take_le _ _) (le_refl _)
  · intro ts h
    obtain ⟨k, hk⟩ := getSessionHistory_take log limit
    rw [hk, List.pairwise_reverse]
    exact List.Pairwise.sublist (List.take_sublist k log) h
  · by_cases hlen : log.length = 0
    · rw [List.length_eq_zero.mp hlen]
      rfl
    · unfold getSessionHistory lRangeFrom0
      have hin : ((0 : ℤ) - 1 < 0) := by omega
      rw [if_pos hin]
      have h1 : ¬ ((log.length : ℤ) + (0 - 1) < 0) := by omega
      rw [if_neg h1]
      have h2 : ((log.length : ℤ) + (0 - 1)).toNat + 1 = log.length := by omega
      rw [h2, List.take_length]

/-- C8 witness: the amended theorem applied at a concrete log and limits,
its hypotheses discharged. -/
theorem C8_history_witness :
    (getSessionHistory [LogEntry.junk, LogEntry.msg ⟨"user", "a", 1⟩] 2).length ≤ (2 : ℤ).toNat ∧
    getSessionHistory [LogEntry.junk, LogEntry.msg ⟨"user", "a", 1⟩] 0
      = [LogEntry.junk, LogEntry.msg ⟨"user", "a", 1⟩].reverse :=
  ⟨((C8_history_amended [LogEntry.junk, LogEntry.msg ⟨"user", "a", 1⟩] 2).1 (by decide)).1,
    (C8_history_amended [LogEntry.junk, LogEntry.msg ⟨"user", "a", 1⟩] 0).2.2⟩

/-! Delivery Coordinator (socketService.js). In this word-splitting layer
JavaScript strings are modelled as character lists so that split(' ') and
join(' ') are structural functions. -/

/-- A de-duplicated source reference attached to a bot message. -/
structure SourceRef where
  title : String
  url : String
  source : String
  publishedAt : String
deriving DecidableEq

/-- The persisted bot message streamResponse receives (id and timestamp
abstracted to naturals). -/
structure BotMsg where
  id : ℕ
  content : List Char
  timestamp : ℕ
  sources : List SourceRef
  retrievedDocs : ℕ
deriving DecidableEq

/-- JavaScript split(' '): split on every single space character, keeping
empty pieces; the result is never the empty array. -/
def splitSp : List Char → List (List Char)
  | [] => [[]]
  | c :: cs =>
    if c = ' ' then [] :: splitSp cs
    else
      match splitSp cs with
      | [] => [[c]]
      | w :: ws => (c :: w) :: ws

/-- JavaScript join(' ') over an array of strings. -/
def joinSp : List (List Char) → List Char
  | [] => []
  | [w] => w
  | w :: ws => w ++ ' ' :: joinSp ws

theorem splitSp_ne_nil (cs : List Char) : splitSp cs ≠ [] := by
  cases cs with
  | nil => simp [splitSp]
  | cons c cs =>
    simp only [splitSp]
    split
    · simp
    · split
      · simp
      · simp

theorem joinSp_cons (w y : List Char) (ws : List (List Char)) :
    joinSp (w :: y :: ws) = w ++ ' ' :: joinSp (y :: ws) := rfl

theorem joinSp_append (a b : List (List Char)) (ha : a ≠ []) (hb : b ≠ []) :
    joinSp (a ++ b) = joinSp a ++ ' ' :: joinSp b := by
  induction a with
  | nil => exact absurd rfl ha
  | cons w a ih =>
    cases a with
    | nil =>
      cases b with
      | nil => exact absurd rfl hb
      | cons y bs => rfl
    | cons w2 a2 =>
      have h := ih (by simp)
      simp only [List.cons_append] at h ⊢
      rw [joinSp_cons, joinSp_cons, h]
      simp [List.append_assoc]

theorem joinSp_splitSp (cs : List Char) : joinSp (splitSp cs) = cs := by
  induction cs with
  | nil => rfl
  | cons c cs ih =>
    simp only [splitSp]
    split
    · rename_i hc
      subst hc
      cases hs : splitSp cs with
      | nil => exact absurd hs (splitSp_ne_nil cs)
      | cons w ws =>
        rw [hs] at ih
        rw [joinSp_cons, List.nil_append, ih]
    · cases hs : splitSp cs with
      | nil => exact absurd hs (splitSp_ne_nil cs)
      | cons w ws =>
        rw [hs] at ih
        cases ws with
        | nil =>
          show c :: w = c :: cs
          rw [show joinSp [w] = w from rfl] at ih
          rw [ih]
        | cons y ws2 =>
          show joinSp ((c :: w) :: y :: ws2) = c :: cs
          rw [joinSp_cons, ← ih, joinSp_cons, List.cons_append]

/-- One message_stream chunk event: the cumulative content streamed so
far, the completion flag, and the sources array (empty until the final
chunk). -/
structure StreamChunk where
  id : ℕ
  content : List Char
  isComplete : Bool
  sources : List SourceRef
  retrievedDocs : ℕ
deriving DecidableEq

/-- The chunk streamResponse emits at word index i with accumulated
content acc: words.slice(i, i+3).join(' ') appended after a separating
space (none on the first chunk), isComplete when i+3 reaches the word
count, sources only on the complete chunk. -/
def chunkAt (m : BotMsg) (ws : List (List Char)) (i : ℕ) (acc : List Char) : StreamChunk :=
  ⟨m.id, acc ++ (if i = 0 then [] else [' ']) ++ joinSp ((ws.drop i).take 3),
    decide (ws.length ≤ i + 3),
    if ws.length ≤ i + 3 then m.sources else [],
    m.retrievedDocs⟩

/-- The emission loop of socketService.streamResponse: for
(i = 0; i < words.length; i += 3) emit the cumulative chunk; the
accumulator entering the next iteration is exactly the content just
emitted. -/
def streamLoop (m : BotMsg) (ws : List (List Char)) (i : ℕ) (acc : List Char) :
    List StreamChunk :=
  if h : i < ws.length then
    chunkAt m ws i acc :: streamLoop m ws (i + 3) (chunkAt m ws i acc).content
  else []
termination_by ws.length - i
decreasing_by omega

/-- socketService.streamResponse: split the persisted content on spaces
and emit the cumulative 3-word chunks; only message_stream events are
emitted (the trailing duplicate message_received emission was removed in
the source). -/
def streamResponse (m : BotMsg) : List StreamChunk :=
  streamLoop m (splitSp m.content) 0 []

/-- An outbound delivery event for a bot message. -/
inductive DeliveryEvent where
  | messageReceived (m : BotMsg)
  | messageStream (c : StreamChunk)
deriving DecidableEq

/-- Whether an event is a terminal delivery signal: a direct
message_received emission, or a streamed chunk with isComplete true. -/
def isTerminal : DeliveryEvent → Bool
  | .messageReceived _ => true
  | .messageStream c => c.isComplete

def countTerminal (evs : List DeliveryEvent) : ℕ := evs.countP fun e => isTerminal e

/-- The delivery step of the chat_message handler once the bot message is
persisted and typing stopped: stream when the response text is longer than
100 characters, otherwise emit a single direct message_received. -/
def deliverBotMessage (m : BotMsg) : List DeliveryEvent :=
  if 100 < m.content.length then (streamResponse m).map DeliveryEvent.messageStream
  else [DeliveryEvent.messageReceived m]

theorem streamLoop_nil (m : BotMsg) (ws : List (List Char)) (i : ℕ) (acc : List Char)
    (h : ¬ i < ws.length) : streamLoop m ws i acc = [] := by
  rw [streamLoop]
  exact dif_neg h

theorem streamLoop_cons (m : BotMsg) (ws : List (List Char)) (i : ℕ) (acc : List Char)
    (h : i < ws.length) :
    streamLoop m ws i acc
      = chunkAt m ws i acc :: streamLoop m ws (i + 3) (chunkAt m ws i acc).content := by
  rw [streamLoop]
  exact dif_pos h

/-- The structural facts about one streaming run: exactly one complete
chunk, every non-final chunk incomplete and sourceless, and the final
chunk complete, carrying the sources, with content equal to the
accumulator extended by all remaining words. -/
theorem streamLoop_props (m : BotMsg) (ws : List (List Char)) :
    ∀ n i acc, ws.length - i ≤ n → i < ws.length →
      (streamLoop m ws i acc).countP (fun c => c.isComplete) = 1 ∧
      (∀ c ∈ (streamLoop m ws i acc).dropLast, c.isComplete = false ∧ c.sources = []) ∧
      ∃ last, (streamLoop m ws i acc).getLast? = some last ∧
        last.isComplete = true ∧ last.sources = m.sources ∧
        last.content = acc ++ (if i = 0 then [] else [' ']) ++ joinSp (ws.drop i) := by
  intro n
  induction n with
  | zero =>
    intro i acc hle hlt
    omega
  | succ n ih =>
    intro i acc hle hlt
    rw [streamLoop_cons m ws i acc hlt]
    by_cases hend : ws.length ≤ i + 3
    · have hrec : streamLoop m ws (i + 3) (chunkAt m ws i acc).content = [] :=
        streamLoop_nil m ws (i + 3) _ (by omega)
      rw [hrec]
      have htake : (ws.drop i).take 3 = ws.drop i :=
        List.take_of_length_le (by rw [List.length_drop]; omega)
      refine ⟨?_, ?_, chunkAt m ws i acc, rfl, ?_, ?_, ?_⟩
      · rw [List.countP_cons]
        simp [chunkAt, hend]
      · intro c hc
        simp at hc
      · simp [chunkAt, hend]
      · simp [chunkAt, hend]
      · simp only [chunkAt, htake]
    · have hlt3 : i + 3 < ws.length := by omega
      obtain ⟨hcount, hdrop, last, hlast, hcompl, hsrc, hcontent⟩ :=
        ih (i + 3) (chunkAt m ws i acc).content (by omega) hlt3
      have htail_ne : streamLoop m ws (i + 3) (chunkAt m ws i acc).content ≠ [] := by
        intro hnil
        rw [hnil] at hlast
        cases hlast
      refine ⟨?_, ?_, last, ?_, hcompl, hsrc, ?_⟩
      · rw [List.countP_cons]
        have : (chunkAt m ws i acc).isComplete = false := by
          simp [chunkAt, hend]
        rw [hcount]
        simp [this]
      · intro c hc
        rw [List.dropLast_cons_of_ne_nil htail_ne] at hc
        rcases List.mem_cons.mp hc with hc | hc
        · subst hc
          constructor
          · simp [chunkAt, hend]
          · simp [chunkAt, hend]
        · exact hdrop c hc
      · cases htail : streamLoop m ws (i + 3) (chunkAt m ws i acc).content with
        | nil => exact absurd htail htail_ne
        | cons t ts =>
          rw [htail] at hlast
          rw [List.getLast?_cons_cons, hlast]
      · rw [hcontent]
        have hsep : (if i + 3 = 0 then ([] : List Char) else [' ']) = [' '] := by
          rw [if_neg (by omega)]
        rw [hsep]
        have hsplit : joinSp (ws.drop i)
            = joinSp ((ws.drop i).take 3) ++ ' ' :: joinSp (ws.drop (i + 3)) := by
          have hdd : (ws.drop i).drop 3 = ws.drop (i + 3) := by
            rw [List.drop_drop]
          rw [← hdd, ← joinSp_append ((ws.drop i).take 3) ((ws.drop i).drop 3) ?_ ?_,
            List.take_append_drop]
          · intro htk
            have := congrArg List.length htk
            rw [List.length_take, List.length_drop] at this
            simp at this
            omega
          · intro hdr
            have := congrArg List.length hdr
            rw [List.length_drop, List.length_drop] at this
            simp at this
            omega
        simp only [chunkAt]
        rw [List.append_assoc, List.append_assoc, hsplit]
        simp [List.append_assoc]

/-- Every streaming run whose accumulator content chain is cumulative:
each emitted chunk's content extends the previous chunk's content. -/
theorem streamLoop_chain (m : BotMsg) (ws : List (List Char)) :
    ∀ n i acc, ws.length - i ≤ n →
      (streamLoop m ws i acc).Chain' (fun a b => a.content <+: b.content) := by
  intro n
  induction n with
  | zero =>
    intro i acc hle
    rw [streamLoop_nil m ws i acc (by omega)]
    exact List.chain'_nil
  | succ n ih =>
    intro i acc hle
    by_cases hlt : i < ws.length
    · rw [streamLoop_cons m ws i acc hlt]
      rw [List.chain'_cons']
      refine ⟨?_, ih (i + 3) _ (by omega)⟩
      intro y hy
      by_cases hlt3 : i + 3 < ws.length
      · rw [streamLoop_cons m ws (i + 3) _ hlt3] at hy
        simp only [List.head?_cons, Option.mem_def, Option.some.injEq] at hy
        subst hy
        exact (List.prefix_append _ _).trans (List.prefix_append _ _)
      · rw [streamLoop_nil m ws (i + 3) _ hlt3] at hy
        simp at hy
    · rw [streamLoop_nil m ws i acc hlt]
      exact List.chain'_nil

theorem splitSp_length_pos (cs : List Char) : 0 < (splitSp cs).length :=
  List.length_pos.mpr (splitSp_ne_nil cs)

/-- The happy-path delivery step (reached when persisting the bot
message succeeded): exactly one terminal delivery signal, a single
direct message_received for a response of at most 100 characters, and
for a longer one only message_stream chunks of which exactly the last
has isComplete true and carries the sources. -/
theorem deliverBotMessage_spec (m : BotMsg) :
    countTerminal (deliverBotMessage m) = 1 ∧
    (m.content.length ≤ 100 → deliverBotMessage m = [DeliveryEvent.messageReceived m]) ∧
    (100 < m.content.length →
      deliverBotMessage m = (streamResponse m).map DeliveryEvent.messageStream ∧
      (streamResponse m).countP (fun c => c.isComplete) = 1 ∧
      (∀ c ∈ (streamResponse m).dropLast, c.isComplete = false ∧ c.sources = []) ∧
      ∃ last, (streamResponse m).getLast? = some last ∧
        last.isComplete = true ∧ last.sources = m.sources) := by
  obtain ⟨hcount, hdrop, last, hlast, hcompl, hsrc, _⟩ :=
    streamLoop_props m (splitSp m.content) (splitSp m.content).length 0 []
      (by omega) (splitSp_length_pos m.content)
  have hstream : (streamResponse m).countP (fun c => c.isComplete) = 1 := hcount
  refine ⟨?_, ?_, ?_⟩
  · unfold deliverBotMessage countTerminal
    split
    · rw [List.countP_map]
      exact hstream
    · rw [List.countP_cons]
      rfl
  · intro hle
    unfold deliverBotMessage
    rw [if_neg (by omega)]
  · intro hgt
    refine ⟨?_, hstream, hdrop, last, hlast, hcompl, hsrc⟩
    unfold deliverBotMessage
    rw [if_pos hgt]

/-- A short and a long concrete bot message. -/
def shortMsg : BotMsg := ⟨1, ['h', 'i'], 0, [], 0⟩

def longMsg : BotMsg := ⟨2, List.replicate 101 'a', 0, [], 0⟩

/-- C10: the chunk contents of a streamed bot message are cumulative and
monotone — each chunk's content is a prefix of the next chunk's content —
the final chunk's content equals the persisted message content exactly,
and every non-final chunk carries an empty sources array. -/
theorem C10_stream_cumulative (m : BotMsg) :
    (streamResponse m).Chain' (fun a b => a.content <+: b.content) ∧
    (∀ last, (streamResponse m).getLast? = some last → last.content = m.content) ∧
    (∀ c ∈ (streamResponse m).dropLast, c.sources = []) := by
  obtain ⟨_, hdrop, last, hlast, _, _, hcontent⟩ :=
    streamLoop_props m (splitSp m.content) (splitSp m.content).length 0 []
      (by omega) (splitSp_length_pos m.content)
  refine ⟨?_, ?_, ?_⟩
  · exact streamLoop_chain m (splitSp m.content) (splitSp m.content).length 0 [] (by omega)
  · intro l hl
    have : l = last := by
      have := hl.symm.trans hlast
      injection this
    subst this
    rw [hcontent]
    simp only [List.nil_append, if_pos rfl, List.drop_zero]
    exact joinSp_splitSp m.content
  · intro c hc
    exact (hdrop c hc).2

/-- A concrete four-word message and the final chunk of its stream. -/
def msgW : BotMsg := ⟨7, ['a', ' ', 'b', ' ', 'c', ' ', 'd'], 0, [], 0⟩

/-- C10 witness: the theorem applied at a concrete four-word message, the
getLast? hypothesis discharged by evaluation. -/
theorem C10_stream_witness :
    ∃ last, (streamResponse msgW).getLast? = some last ∧ last.content = msgW.content := by
  have e0 : streamResponse msgW
      = [chunkAt msgW (splitSp msgW.content) 0 [],
         chunkAt msgW (splitSp msgW.content) 3
           (chunkAt msgW (splitSp msgW.content) 0 []).content] := by
    unfold streamResponse
    rw [streamLoop_cons _ _ 0 [] (by decide), streamLoop_cons _ _ 3 _ (by decide),
      streamLoop_nil _ _ 6 _ (by decide)]
  have h : (streamResponse msgW).getLast?
      = some (chunkAt msgW (splitSp msgW.content) 3
          (chunkAt msgW (splitSp msgW.content) 0 []).content) := by
    rw [e0]
    rfl
  exact ⟨_, h, (C10_stream_cumulative msgW).2.1 _ h⟩

/-! Vector Retriever, Context Assembler and Generation Mediator
(ragService.js). -/

/-- A raw Qdrant search hit: its payload fields, the similarity score,
and the stored raw vector (which retrieveDocuments asks the index not to
return and never passes on). -/
structure SearchHit where
  title : String
  content : String
  url : String
  source : String
  publishedAt : String
  score : ℚ
  vector : List JComp
deriving DecidableEq

/-- Outcome of an index search: the full ranking, or a thrown error. -/
inductive IndexOutcome where
  | ok (hits : List SearchHit)
  | failure
deriving DecidableEq

/-- A retrieved document as ragService.retrieveDocuments returns it:
payload fields plus score — no raw vector field exists in this shape. -/
structure RetrievedDoc where
  content : String
  title : String
  url : String
  source : String
  publishedAt : String
  score : ℚ
deriving DecidableEq

/-- The projection retrieveDocuments applies to each search result. -/
def projHit (r : SearchHit) : RetrievedDoc :=
  ⟨r.content, r.title, r.url, r.source, r.publishedAt, r.score⟩

/-- Outcome of model.generateContent: a thrown error or invalid result
shape (both caught), or a response whose text() is the given string. -/
inductive GenOutcome where
  | failure
  | ok (s : String)
deriving DecidableEq

/-- The environment of the retrieval-history-generation path: the
embedding environment, the index ranking per query vector, the session's
redis message list (newest first, as lPush stores it), whether the
history read throws, the generation outcome per prompt, and
toLocaleDateString. -/
structure RagEnv where
  embed : EmbedEnv
  index : List JComp → IndexOutcome
  log : List LogEntry
  histFails : Bool
  gen : String → GenOutcome
  fmtDate : String → String

def topK : ℕ := 5

/-- The qdrant client's search with a limit: at most limit nearest
neighbors of the ranking, or the thrown error. -/
def qdrantSearch (env : RagEnv) (vec : List JComp) (limit : ℕ) : IndexOutcome :=
  match env.index vec with
  | IndexOutcome.ok hits => IndexOutcome.ok (hits.take limit)
  | IndexOutcome.failure => IndexOutcome.failure

/-- What one retrieveDocuments call produces: the documents and whether
the embedder was invoked. -/
structure RetrieveResult where
  docs : List RetrievedDoc
  embedderCalled : Bool
deriving DecidableEq

/-- ragService.retrieveDocuments: a blank query returns [] before the
embedder is invoked; otherwise the query is embedded and searched with
limit topK, payload included and vectors excluded; a search failure is
caught and returns []. -/
def retrieveDocuments (env : RagEnv) (query : String) : RetrieveResult :=
  if jsTrim query = "" then ⟨[], false⟩
  else
    match qdrantSearch env (generateEmbedding env.embed query).vec topK with
    | IndexOutcome.ok hits => ⟨hits.map projHit, true⟩
    | IndexOutcome.failure => ⟨[], true⟩

/-- ragService.getConversationHistory: lRange(key, -10, -1), the last ten
elements of the redis list; because addMessage lPushes (newest at index
0), these are the ten oldest entries, in stored order; a redis error is
caught and yields []. -/
def getConversationHistory (env : RagEnv) : List LogEntry :=
  if env.histFails then [] else env.log.drop (env.log.length - 10)

/-- The h && h.content filter generateResponse applies to the fetched
history: it drops the junk entry (no content field) and entries with
empty content. -/
def hasContent : LogEntry → Bool
  | LogEntry.msg m => m.content != ""
  | LogEntry.junk => false

/-- The history generateResponse feeds into buildPrompt. -/
def historyForPrompt (env : RagEnv) : List LogEntry :=
  (getConversationHistory env).filter hasContent

/-- One history line of ragService.buildPrompt: role label, colon,
content (a junk entry would print its undefined fields). -/
def historyLine : LogEntry → String
  | LogEntry.msg m => m.ty ++ ": " ++ m.content
  | LogEntry.junk => "undefined: undefined"

/-- One block of ragService.buildContext. -/
def contextBlock (fmtDate : String → String) (i : ℕ) (doc : RetrievedDoc) : String :=
  "\nDocument " ++ toString (i + 1) ++ ":\nTitle: " ++ doc.title ++ "\nSource: "
    ++ doc.source ++ "\nPublished: " ++ fmtDate doc.publishedAt ++ "\nContent: "
    ++ doc.content ++ "\nURL: " ++ doc.url ++ "\n---"

/-- ragService.buildContext: the per-document blocks joined with
newlines, in retrieval-rank order. -/
def buildContext (fmtDate : String → String) (docs : List RetrievedDoc) : String :=
  String.intercalate "\n"
    (((List.range docs.length).zip docs).map fun p => contextBlock fmtDate p.1 p.2)

/-- ragService.buildPrompt: the template literal joining the context, the
role-labeled history lines, and the query. -/
def buildPrompt (query context : String) (history : List LogEntry) : String :=
  "\n    Context: " ++ context ++ "\n    \n    Conversation History:\n    "
    ++ String.intercalate "\n" (history.map historyLine)
    ++ "\n    \n    User Query: " ++ query
    ++ "\n    \n    Please provide a helpful response based on the context and conversation history.\n  "

/-- JavaScript Map set-then-values semantics: setting an existing key
updates its value in place (keeping the first-insertion position), a new
key appends. -/
def mapSet (l : List (String × SourceRef)) (k : String) (v : SourceRef) :
    List (String × SourceRef) :=
  if l.any fun p => p.1 = k then l.map fun p => if p.1 = k then (p.1, v) else p
  else l ++ [(k, v)]

/-- ragService.extractUniqueSources: fold the documents into a Map keyed
by url and return its values, each reduced to title/url/source/publishedAt. -/
def extractUniqueSources (docs : List RetrievedDoc) : List SourceRef :=
  (docs.foldl (fun acc d => mapSet acc d.url ⟨d.title, d.url, d.source, d.publishedAt⟩) []).map
    Prod.snd

/-- The uniform result shape of ragService.generateResponse. -/
structure GenResult where
  response : String
  sources : List SourceRef
  retrievedDocs : ℕ
deriving DecidableEq

def invalidQueryResult : GenResult := ⟨"Please enter a valid query.", [], 0⟩

def noResultsResult : GenResult :=
  ⟨"No relevant news found. Try rephrasing your query.", [], 0⟩

def apologyResult : GenResult :=
  ⟨"I'm sorry, I encountered an error while processing your question. Please try again or rephrase your query.",
    [], 0⟩

/-- The prompt generateResponse builds for a non-blank query. -/
def promptOf (env : RagEnv) (query : String) : String :=
  buildPrompt query (buildContext env.fmtDate (retrieveDocuments env query).docs)
    (historyForPrompt env)

/-- ragService.generateResponse: a blank query yields the fixed
invalid-query text; an empty retrieval yields the fixed no-results text;
otherwise context and prompt are assembled from the filtered history and
the generation capability is invoked — an empty text() falls back to a
fixed string, and any exception in the guarded block is caught into the
fixed apologetic result. -/
def generateResponse (env : RagEnv) (query : String) : GenResult :=
  if jsTrim query = "" then invalidQueryResult
  else
    if (retrieveDocuments env query).docs = [] then noResultsResult
    else
      match env.gen (promptOf env query) with
      | GenOutcome.failure => apologyResult
      | GenOutcome.ok s =>
        ⟨if s = "" then "Sorry, I could not generate a response." else s,
          extractUniqueSources (retrieveDocuments env query).docs,
          (retrieveDocuments env query).docs.length⟩

/-- C6: retrieveDocuments returns [] on a blank query without invoking
the embedder; a failing index search is caught into [] (and the function
is total, so it never throws); on success it returns at most topK = 5
records, each the projection of a hit to its payload fields and score,
with no raw vector. -/
theorem C6_retrieve_contract (env : RagEnv) (query : String) :
    (jsTrim query = "" → retrieveDocuments env query = ⟨[], false⟩) ∧
    (retrieveDocuments env query).docs.length ≤ 5 ∧
    (env.index (generateEmbedding env.embed query).vec = IndexOutcome.failure →
      (retrieveDocuments env query).docs = []) ∧
    (∀ hits, env.index (generateEmbedding env.embed query).vec = IndexOutcome.ok hits →
      jsTrim query ≠ "" →
      retrieveDocuments env query = ⟨(hits.take 5).map projHit, true⟩) := by
  by_cases hb : jsTrim query = ""
  · refine ⟨fun _ => ?_, ?_, fun _ => ?_, fun hits _ hq => absurd hb hq⟩
    · simp only [retrieveDocuments, if_pos hb]
    · simp only [retrieveDocuments, if_pos hb]
      exact Nat.zero_le 5
    · simp only [retrieveDocuments, if_pos hb]
  · cases hix : env.index (generateEmbedding env.embed query).vec with
    | ok hits =>
      have he : retrieveDocuments env query = ⟨(hits.take 5).map projHit, true⟩ := by
        simp only [retrieveDocuments, if_neg hb, qdrantSearch, hix, topK]
      refine ⟨fun h => absurd h hb, ?_, ?_, ?_⟩
      · rw [he]
        simp only [List.length_map, List.length_take]
        exact min_le_left 5 hits.length
      · intro h
        cases h
      · intro hits2 hix2 _
        injection hix2 with h2
        rw [← h2]
        exact he
    | failure =>
      have he : retrieveDocuments env query = ⟨[], true⟩ := by
        simp only [retrieveDocuments, if_neg hb, qdrantSearch, hix, topK]
      refine ⟨fun h => absurd h hb, ?_, fun _ => by rw [he], ?_⟩
      · rw [he]
        exact Nat.zero_le 5
      · intro hits2 hix2 _
        cases hix2

/-- A concrete environment: empty cache, failing index, failing
generation, empty log. -/
def ragEnvFail : RagEnv :=
  { embed := emptyCacheEnv, index := fun _ => IndexOutcome.failure, log := [],
    histFails := false, gen := fun _ => GenOutcome.failure, fmtDate := id }

/-- C6 witness: the theorem applied at a whitespace-only query and at a
failing index, hypotheses discharged by evaluation. -/
theorem C6_retrieve_witness :
    retrieveDocuments ragEnvFail "   " = ⟨[], false⟩ ∧
    (retrieveDocuments ragEnvFail "news").docs = [] :=
  ⟨(C6_retrieve_contract ragEnvFail "   ").1 (by decide),
    (C6_retrieve_contract ragEnvFail "news").2.2.1 rfl⟩

/-- C5 (amended): generateResponse is total (never propagates an
exception to its caller); a blank query yields the fixed invalid-query
result with empty sources and retrievedDocs 0; an empty retrieval —
including every retrieval failure, which retrieveDocuments absorbs into
an empty list — yields the fixed no-results result; and an exception
reaching the mediator's own handler (the generation step) yields the
fixed apologetic result with empty sources and retrievedDocs 0. -/
theorem C5_generateResponse_amended (env : RagEnv) (query : String) :
    (jsTrim query = "" → generateResponse env query = invalidQueryResult) ∧
    (jsTrim query ≠ "" → (retrieveDocuments env query).docs = [] →
      generateResponse env query = noResultsResult) ∧
    (jsTrim query ≠ "" → (retrieveDocuments env query).docs ≠ [] →
      env.gen (promptOf env query) = GenOutcome.failure →
      generateResponse env query = apologyResult) := by
  refine ⟨?_, ?_, ?_⟩
  · intro h
    simp only [generateResponse, if_pos h]
  · intro h hd
    simp only [generateResponse, if_neg h, if_pos hd]
  · intro h hd hg
    simp only [generateResponse, if_neg h, if_neg hd, hg]

/-- C5 counterexample: with a failing index search — an exception raised
in the retrieval path — and a non-blank query, generateResponse returns
the fixed no-results text, not the fixed apologetic text the claim
requires for any exception anywhere in the retrieval/history/generation
path (retrieval exceptions are swallowed inside retrieveDocuments and
surface as an empty retrieval). -/
theorem C5_retrieval_failure_counterexample :
    generateResponse ragEnvFail "latest news" = noResultsResult ∧
    ragEnvFail.index (generateEmbedding ragEnvFail.embed "latest news").vec
      = IndexOutcome.failure ∧
    noResultsResult ≠ apologyResult := by
  refine ⟨?_, rfl, by decide⟩
  have hb : ¬ jsTrim "latest news" = "" := by decide
  have hd : (retrieveDocuments ragEnvFail "latest news").docs = [] := rfl
  simp only [generateResponse, if_neg hb, if_pos hd]

/-- C5 witness: the amended theorem applied at a blank and at a
no-results query, hypotheses discharged by evaluation. -/
theorem C5_generateResponse_witness :
    generateResponse ragEnvFail "" = invalidQueryResult ∧
    generateResponse ragEnvFail "news today" = noResultsResult :=
  ⟨(C5_generateResponse_amended ragEnvFail "").1 rfl,
    (C5_generateResponse_amended ragEnvFail "news today").2.1 (by decide) rfl⟩

/-- Modelled from the spec: the history portion §4.5/§4.6 describe — the
last 10 (most recent) entries of the session log in oldest-first order,
entries lacking content filtered out. The log is stored newest-first, so
this is the reverse of the first ten stored entries. -/
def specRecentHistory (log : List LogEntry) : List LogEntry :=
  ((log.take 10).reverse).filter hasContent

/-- An 11-message session log, newest first: contents "11" down to "1". -/
def log11 : List LogEntry :=
  ((List.range 11).reverse).map fun i => LogEntry.msg ⟨"user", toString (i + 1), i + 1⟩

def env11 : RagEnv :=
  { embed := emptyCacheEnv, index := fun _ => IndexOutcome.failure, log := log11,
    histFails := false, gen := fun _ => GenOutcome.failure, fmtDate := id }

/-- C7: evaluation exhibiting the history-selection bug.
getConversationHistory uses lRange(key, -10, -1), the last ten elements
of the redis list; because addMessage lPushes (newest at index 0), these
are the ten oldest messages in newest-of-those-first order — not the ten
most recent in oldest-first order that the claim describes. On an
11-message log the code selects messages 10 down to 1, while the claimed
behaviour selects 2 up to 11; content filtering and role labeling do
hold as claimed. -/
theorem C7_history_selection_bug_eval :
    historyForPrompt env11
      = ((List.range 10).reverse).map (fun i => LogEntry.msg ⟨"user", toString (i + 1), i + 1⟩) ∧
    specRecentHistory env11.log
      = ((List.range 10).map fun i => LogEntry.msg ⟨"user", toString (i + 2), i + 2⟩) ∧
    historyForPrompt env11 ≠ specRecentHistory env11.log ∧
    (historyForPrompt env11).map historyLine
      = ((List.range 10).reverse).map fun i => "user: " ++ toString (i + 1) := by
  refine ⟨by decide, by decide, by decide, by decide⟩

/-! Document ingestion (ragService.storeDocument, chunkText,
sanitizePayload). -/

/-- A sentence terminator of the regex [^\.!?]+[\.!?]+. -/
def isTerm (c : Char) : Bool := c = '.' || c = '!' || c = '?'

/-- One scan step decomposition for the global regex match: the maximal
run of non-terminators after skipping unmatchable leading terminators. -/
def sentWord (cs : List Char) : List Char :=
  (cs.dropWhile isTerm).takeWhile fun c => !(isTerm c)

def sentTail (cs : List Char) : List Char :=
  (cs.dropWhile isTerm).dropWhile fun c => !(isTerm c)

def sentPunct (cs : List Char) : List Char := (sentTail cs).takeWhile isTerm

def sentRest (cs : List Char) : List Char := (sentTail cs).dropWhile isTerm

/-- Global matching of /[^\.!?]+[\.!?]+/g: repeatedly take a maximal
non-terminator run followed by a maximal terminator run; a trailing
fragment with no terminator is dropped, exactly as String.prototype.match
drops it. The fuel equals the scanned length, which suffices because
every match consumes at least one character. -/
def matchSentencesGo : ℕ → List Char → List (List Char)
  | 0, _ => []
  | fuel + 1, cs =>
    if sentWord cs = [] then []
    else if sentPunct cs = [] then []
    else (sentWord cs ++ sentPunct cs) :: matchSentencesGo fuel (sentRest cs)

def matchSentences (cs : List Char) : List (List Char) := matchSentencesGo cs.length cs

/-- ragService.chunkText: split into regex sentences (no match at all
falls back to the whole text); accumulate whole sentences while the
running chunk stays within chunkSize, otherwise push the trimmed chunk
and carry the last overlap/10 words into the next chunk; push the final
chunk and keep only chunks longer than 50 characters. -/
def chunkText (text : String) (chunkSize overlap : ℕ) : List String :=
  let sentences : List String :=
    match matchSentences text.data with
    | [] => [text]
    | l => l.map fun w => w.asString
  let step : List String × String → String → List String × String := fun acc s =>
    if acc.2.length + s.length ≤ chunkSize then (acc.1, acc.2 ++ s)
    else
      ((if acc.2 = "" then acc.1 else acc.1 ++ [jsTrim acc.2]),
        ((joinSp ((splitSp acc.2.data).drop ((splitSp acc.2.data).length - overlap / 10))).asString)
          ++ s)
  let fin := sentences.foldl step ([], "")
  (if fin.2 = "" then fin.1 else fin.1 ++ [jsTrim fin.2]).filter fun c => 50 < c.length

/-- A document handed to the ingestion boundary. -/
structure DocInput where
  id : String
  title : String
  content : String
  url : String
  publishedAt : String
  source : String
deriving DecidableEq

/-- The payload of an upserted index point. -/
structure QPayload where
  title : String
  content : String
  url : String
  publishedAt : String
  source : String
  chunkIndex : ℕ
  originalDocId : String
  originalChunkId : String
deriving DecidableEq

/-- An upserted index point: fresh uuid id, vector, payload. -/
structure QPoint where
  pointId : String
  vector : List JComp
  payload : QPayload
deriving DecidableEq

/-- The environment of storeDocument: the embedding result per chunk
text, the uuidv4 stream, and new Date().toISOString(). -/
structure StoreEnv where
  embedF : String → List JComp
  uuid : ℕ → String
  nowIso : String

/-- The JavaScript || defaulting over strings: the empty string is falsy. -/
def orDefault (s d : String) : String := if s = "" then d else s

/-- ragService.storeDocument: skip documents with fewer than 50
characters of content; chunk with chunkText(content, 500, 50); per chunk,
skip blank title-prefixed chunk texts and embeddings that are not
768-length arrays, and upsert one point per surviving chunk with a fresh
uuid, the raw (only defaulted) payload strings, and the caller-supplied
chunk id preserved only inside the payload. The result lists the upserted
points. -/
def storeDocument (env : StoreEnv) (doc : DocInput) : List QPoint :=
  if doc.content = "" ∨ doc.content.length < 50 then []
  else
    (List.enum (chunkText doc.content 500 50)).filterMap fun p =>
      if jsTrim (doc.title ++ "\n\n" ++ p.2) = "" then none
      else if (env.embedF (doc.title ++ "\n\n" ++ p.2)).length ≠ 768 then none
      else some
        { pointId := env.uuid p.1,
          vector := env.embedF (doc.title ++ "\n\n" ++ p.2),
          payload :=
            { title := orDefault doc.title "Untitled",
              content := p.2,
              url := doc.url,
              publishedAt := orDefault doc.publishedAt env.nowIso,
              source := orDefault doc.source "Unknown",
              chunkIndex := p.1,
              originalDocId := orDefault doc.id "unknown",
              originalChunkId := doc.id ++ "_chunk_" ++ toString p.1 } }

/-- ragService.sanitizePayload's string branch: remove [\x00-\x1F\x7F]
and cap at 1000 characters. The helper exists in the source but is never
invoked by storeDocument. -/
def sanitizeString (s : String) : String :=
  ((s.data.filter fun c => !(decide (c.toNat ≤ 0x1F) || decide (c.toNat = 0x7F))).take 1000).asString

/-- A document whose title carries a control character and whose content
is one 61-character sentence. -/
def evilDoc : DocInput :=
  { id := "d1", title := "Evil\x01Title",
    content := (List.replicate 60 'a' ++ ['.']).asString,
    url := "http://e", publishedAt := "2024-01-01", source := "wire" }

def storeEnvW : StoreEnv :=
  { embedF := fun _ => zeroVec, uuid := fun i => "u" ++ toString i, nowIso := "now" }

set_option maxRecDepth 4000 in
/-- C9 counterexample: storeDocument upserts the raw title — the control
character survives into the stored payload, so payload string fields are
not control-character-stripped (sanitizePayload is never invoked). -/
theorem C9_unsanitized_counterexample :
    ((storeDocument storeEnvW evilDoc).map fun p => p.payload.title) = ["Evil\x01Title"] ∧
    ("Evil\x01Title").data.any (fun c => c.toNat ≤ 0x1F) = true ∧
    sanitizeString "Evil\x01Title" ≠ "Evil\x01Title" := by
  refine ⟨by decide, by decide, by decide⟩

/-- C9 (amended): every point storeDocument upserts carries the raw
(only defaulted-when-empty) document and chunk strings in its payload —
no length cap and no control-character stripping is applied on the
storage path; the sanitizePayload helper, which caps strings at 1000
characters and strips [\x00-\x1F\x7F], exists in the source but is dead
code. -/
theorem C9_payload_raw_amended (env : StoreEnv) (doc : DocInput) :
    (∀ p ∈ storeDocument env doc,
      p.payload.title = orDefault doc.title "Untitled" ∧
      p.payload.url = doc.url ∧
      p.payload.source = orDefault doc.source "Unknown" ∧
      p.payload.content ∈ chunkText doc.content 500 50) ∧
    (∀ s : String, (sanitizeString s).length ≤ 1000 ∧
      ∀ c ∈ (sanitizeString s).data, ¬ (c.toNat ≤ 0x1F ∨ c.toNat = 0x7F)) := by
  constructor
  · intro p hp
    unfold storeDocument at hp
    split at hp
    · cases hp
    · rcases List.mem_filterMap.mp hp with ⟨q, hq, hfq⟩
      have hchunk : q.2 ∈ chunkText doc.content 500 50 := by
        rw [List.enum_eq_zip_range] at hq
        exact (List.of_mem_zip hq).2
      split at hfq
      · cases hfq
      · split at hfq
        · cases hfq
        · injection hfq with hfq
          rw [← hfq]
          exact ⟨rfl, rfl, rfl, hchunk⟩
  · intro s
    constructor
    · show ((s.data.filter _).take 1000).length ≤ 1000
      rw [List.length_take]
      exact min_le_left 1000 _
    · intro c hc
      have hc' : c ∈ (s.data.filter fun c => !(decide (c.toNat ≤ 0x1F) || decide (c.toNat = 0x7F))).take 1000 := hc
      have hmem := List.mem_of_mem_take hc'
      have hpred := List.of_mem_filter hmem
      simp only [Bool.not_eq_true', Bool.or_eq_false_iff, decide_eq_false_iff_not] at hpred
      intro hor
      rcases hor with hor | hor
      · exact hpred.1 hor
      · exact hpred.2 hor

/-- C9 witness: the amended theorem applied at the concrete environment,
document and string. -/
theorem C9_payload_raw_witness :
    (sanitizeString "Evil\x01Title").length ≤ 1000 ∧
    sanitizeString "Evil\x01Title" = "EvilTitle" :=
  ⟨((C9_payload_raw_amended storeEnvW evilDoc).2 "Evil\x01Title").1, by decide⟩

/-! The full bot-message stage of the chat_message handler
(socketService.js), catch branch included. -/

/-- The fixed fallback text of the handler's catch branch — the same
string ragService's own catch returns — as a character list. -/
def errorFallbackText : List Char := apologyResult.response.data

/-- The bot error message the catch branch builds with the already-minted
response id and timestamp: the fixed fallback content, empty sources (the
stored object also carries isError: true and no retrievedDocs field). -/
def errorBotMsg (id ts : ℕ) : BotMsg := ⟨id, errorFallbackText, ts, [], 0⟩

/-- Outcomes of the two sessionService.addMessage calls in the handler's
bot stage: whether persisting the generated bot message, and — on the
error path — the fallback error message, succeeds or throws. -/
structure HandlerEnv where
  storeBotOk : Bool
  storeErrOk : Bool

/-- The bot-message stage of the chat_message handler: persist the
generated bot message and deliver it by length (deliverBotMessage); when
that persistence throws, the catch branch persists the fixed error
message and emits it via a single direct message_received regardless of
its length; when even that persistence throws, control reaches the outer
catch, which emits only a plain error event — no delivery signal at all.
generateResponse itself never throws (its model is total), so the catch
is reachable only through addMessage. -/
def handlerBotStage (env : HandlerEnv) (m : BotMsg) : List DeliveryEvent :=
  if env.storeBotOk then deliverBotMessage m
  else if env.storeErrOk then
    [DeliveryEvent.messageReceived (errorBotMsg m.id m.timestamp)]
  else []

/-- Whether an event is a message_stream chunk. -/
def isStreamEvent : DeliveryEvent → Bool
  | DeliveryEvent.messageStream _ => true
  | DeliveryEvent.messageReceived _ => false

theorem errorFallbackText_length : errorFallbackText.length = 106 := by decide

/-- A handler run in which persisting the generated bot message throws
but persisting the fallback error message succeeds. -/
def failStoreEnv : HandlerEnv := ⟨false, true⟩

/-- A handler run in which persistence succeeds. -/
def okStoreEnv : HandlerEnv := ⟨true, true⟩

/-- C1 counterexample: when persisting the generated bot message throws,
the bot message actually produced and delivered by the handler is the
fixed fallback error message — 106 characters, over the 100-character
threshold — emitted as a single direct message_received with not one
message_stream chunk, refuting the claimed length dichotomy for that
bot message. -/
theorem C1_error_path_counterexample :
    handlerBotStage failStoreEnv shortMsg
      = [DeliveryEvent.messageReceived (errorBotMsg 1 0)] ∧
    100 < (errorBotMsg 1 0).content.length ∧
    (handlerBotStage failStoreEnv shortMsg).countP isStreamEvent = 0 := by
  refine ⟨rfl, ?_, rfl⟩
  show 100 < errorFallbackText.length
  decide

/-- C1 (amended): for every bot message produced in response to a
chat_message event. When persisting the generated bot message succeeds,
exactly one terminal delivery signal is emitted, following the length
dichotomy: at most 100 characters yields a single direct
message_received, more yields only message_stream chunks of which
exactly one — the last — has isComplete true and carries the sources;
never both paths, never zero or two terminal signals. When that
persistence throws, the catch branch delivers the fixed 106-character
error message as a single direct message_received — again exactly one
terminal signal, but over the threshold without streaming, so the
dichotomy does not extend to this path. When even the error-message
persistence throws, no delivery signal is emitted at all. -/
theorem C1_terminal_delivery_amended (env : HandlerEnv) (m : BotMsg) :
    (env.storeBotOk = true →
      countTerminal (handlerBotStage env m) = 1 ∧
      (m.content.length ≤ 100 →
        handlerBotStage env m = [DeliveryEvent.messageReceived m]) ∧
      (100 < m.content.length →
        handlerBotStage env m = (streamResponse m).map DeliveryEvent.messageStream ∧
        (streamResponse m).countP (fun c => c.isComplete) = 1 ∧
        (∀ c ∈ (streamResponse m).dropLast, c.isComplete = false ∧ c.sources = []) ∧
        ∃ last, (streamResponse m).getLast? = some last ∧
          last.isComplete = true ∧ last.sources = m.sources)) ∧
    (env.storeBotOk = false → env.storeErrOk = true →
      handlerBotStage env m
          = [DeliveryEvent.messageReceived (errorBotMsg m.id m.timestamp)] ∧
      countTerminal (handlerBotStage env m) = 1 ∧
      100 < (errorBotMsg m.id m.timestamp).content.length) ∧
    (env.storeBotOk = false → env.storeErrOk = false → handlerBotStage env m = []) := by
  refine ⟨?_, ?_, ?_⟩
  · intro hok
    have he : handlerBotStage env m = deliverBotMessage m := by
      simp [handlerBotStage, hok]
    rw [he]
    exact deliverBotMessage_spec m
  · intro hbot herr
    have he : handlerBotStage env m
        = [DeliveryEvent.messageReceived (errorBotMsg m.id m.timestamp)] := by
      simp [handlerBotStage, hbot, herr]
    refine ⟨he, ?_, ?_⟩
    · rw [he]
      rfl
    · show 100 < errorFallbackText.length
      rw [errorFallbackText_length]
      omega
  · intro hbot herr
    simp [handlerBotStage, hbot, herr]

/-- C1 witness: the amended theorem applied on the success path at a
2-character and a 101-character message and on the error path, all
hypotheses discharged by evaluation. -/
theorem C1_terminal_delivery_witness :
    countTerminal (handlerBotStage okStoreEnv shortMsg) = 1 ∧
    handlerBotStage okStoreEnv shortMsg = [DeliveryEvent.messageReceived shortMsg] ∧
    handlerBotStage okStoreEnv longMsg
      = (streamResponse longMsg).map DeliveryEvent.messageStream ∧
    handlerBotStage failStoreEnv longMsg
      = [DeliveryEvent.messageReceived (errorBotMsg 2 0)] :=
  ⟨((C1_terminal_delivery_amended okStoreEnv shortMsg).1 rfl).1,
    ((C1_terminal_delivery_amended okStoreEnv shortMsg).1 rfl).2.1 (by decide),
    (((C1_terminal_delivery_amended okStoreEnv longMsg).1 rfl).2.2 (by simp [longMsg])).1,
    ((C1_terminal_delivery_amended failStoreEnv longMsg).2.1 rfl rfl).1⟩

end News
